import Mathlib

/-!
Verification of the slide-scroll manager in `src/main.js`
(classes `SlideManager`, `SlideNavigation`, `KeyboardNavigation`).

Geometry values (pixel offsets, heights) are modelled as rationals `ℚ`,
since the only arithmetic the code performs on them is `+`, `-`, `*`, `/`,
`min`, `max` and comparisons.  Where the JavaScript semantics of division
by zero matters (`updateScrollProgress` divides without a guard), the
result type `JsNum` additionally carries NaN and the two infinities with
the IEEE-754 behaviour of `/`, `*` and `Math.min`.
-/

namespace ClickGasto

/-- A slide element as seen by the code: its `offsetTop` and
`offsetHeight` (src/main.js lines 38-39). -/
structure Slide where
  offsetTop : ℚ
  offsetHeight : ℚ
deriving DecidableEq

/-- The read-only scroll state the code queries from the browser:
`window.pageYOffset`, `window.innerHeight` and
`document.documentElement.scrollHeight`. -/
structure ScrollState where
  pageYOffset : ℚ
  innerHeight : ℚ
  scrollHeight : ℚ
deriving DecidableEq

/-- The focus point `window.pageYOffset + window.innerHeight * 0.5`
(src/main.js lines 36 and 105). -/
def focusPoint (st : ScrollState) : ℚ :=
  st.pageYOffset + st.innerHeight * (1 / 2)

/-- The per-slide test `scrollPosition >= slideTop && scrollPosition < slideBottom`
(src/main.js lines 40 and 110): membership of the focus point in the
half-open range `[offsetTop, offsetTop + offsetHeight)`. -/
def slideContains (sl : Slide) (fp : ℚ) : Prop :=
  sl.offsetTop ≤ fp ∧ fp < sl.offsetTop + sl.offsetHeight

instance (sl : Slide) (fp : ℚ) : Decidable (slideContains sl fp) := by
  unfold slideContains; infer_instance

/-- The `forEach` scan of `getCurrentSlideIndex` (src/main.js lines 107-113):
walks the slides carrying the running element index `i` and the accumulator
`currentIndex`, overwriting the accumulator with `i` on every slide whose
range contains the focus point. -/
def scanIndex (fp : ℚ) : ℕ → List Slide → ℕ → ℕ
  | _, [], cur => cur
  | i, sl :: rest, cur =>
      scanIndex fp (i + 1) rest (if slideContains sl fp then i else cur)

/-- `SlideManager.getCurrentSlideIndex` (src/main.js lines 104-115):
`currentIndex` starts at 0 and is set to the index of every slide whose
half-open range contains the focus point; the last match wins, and with no
match the initial 0 is returned. -/
def getCurrentSlideIndex (slides : List Slide) (st : ScrollState) : ℕ :=
  scanIndex (focusPoint st) 0 slides 0

/-- The mutable state of `SlideManager` relevant to the ambient tracker:
`this.currentSlide` (1-based, initialised to 1) and the number shown by the
`.current-slide` counter element (`textContent`, written by
`updateSlideCounter`, src/main.js lines 50-54). -/
structure MgrState where
  currentSlide : ℕ
  counterDisplay : ℕ
deriving DecidableEq

/-- One iteration of the `forEach` body of `updateCurrentSlide`
(src/main.js lines 37-47): on a containing slide, compute
`newSlide = index + 1` (inlined here as `i + 1`) and, only when it differs
from the stored value, store it and rewrite the counter. -/
def updateStep (fp : ℚ) (i : ℕ) (sl : Slide) (s : MgrState) : MgrState :=
  if slideContains sl fp then
    if i + 1 ≠ s.currentSlide then
      { currentSlide := i + 1, counterDisplay := i + 1 }
    else s
  else s

/-- The `forEach` loop of `updateCurrentSlide`, threading the manager
state through `updateStep` with the running element index. -/
def updateCurrentSlideAux (fp : ℚ) : ℕ → List Slide → MgrState → MgrState
  | _, [], s => s
  | i, sl :: rest, s =>
      updateCurrentSlideAux fp (i + 1) rest (updateStep fp i sl s)

/-- `SlideManager.updateCurrentSlide` (src/main.js lines 35-48). -/
def updateCurrentSlide (slides : List Slide) (st : ScrollState)
    (s : MgrState) : MgrState :=
  updateCurrentSlideAux (focusPoint st) 0 slides s

/-- A JavaScript number as produced by the arithmetic in
`updateScrollProgress`: a finite rational, NaN, or a signed infinity. -/
inductive JsNum where
  | nan : JsNum
  | posInf : JsNum
  | negInf : JsNum
  | num : ℚ → JsNum
deriving DecidableEq

/-- JavaScript division of two finite numbers: `0 / 0` is NaN and
`a / 0` for nonzero `a` is a signed infinity.  (`documentHeight` is an
exact difference of finite values, so a zero divisor here is `+0`.) -/
def jsDiv (a b : ℚ) : JsNum :=
  if b = 0 then
    if a = 0 then JsNum.nan
    else if 0 < a then JsNum.posInf
    else JsNum.negInf
  else JsNum.num (a / b)

/-- JavaScript multiplication of a possibly non-finite number by the
positive finite constant 100. -/
def jsMul100 : JsNum → JsNum
  | JsNum.nan => JsNum.nan
  | JsNum.posInf => JsNum.posInf
  | JsNum.negInf => JsNum.negInf
  | JsNum.num q => JsNum.num (q * 100)

/-- `Math.min(x, c)` for a finite `c`: NaN-propagating minimum. -/
def jsMin (x : JsNum) (c : ℚ) : JsNum :=
  match x with
  | JsNum.nan => JsNum.nan
  | JsNum.posInf => JsNum.num c
  | JsNum.negInf => JsNum.negInf
  | JsNum.num q => JsNum.num (min q c)

/-- `SlideManager.updateScrollProgress` (src/main.js lines 25-33): computes
`documentHeight = scrollHeight - innerHeight` (inlined below), then
`progress = scrollTop / documentHeight * 100`, and returns the value
`Math.min(progress, 100)` written (as a percentage) to the progress bar's
width.  There is no guard against a zero or negative `documentHeight`. -/
def updateScrollProgress (st : ScrollState) : JsNum :=
  jsMin (jsMul100 (jsDiv st.pageYOffset (st.scrollHeight - st.innerHeight))) 100

/-- The single smooth-scroll request `scrollIntoView({ behavior: 'smooth',
block: 'start' })` issued for a slide (src/main.js line 99): align the
slide's top edge with the viewport top, smoothly. -/
structure ScrollRequest where
  slideIndex : ℕ
  smooth : Bool
  alignTop : Bool
deriving DecidableEq

/-- `SlideManager.goToSlide` (src/main.js lines 97-101): issue one
smooth-scroll request for slide `slideIndex` when
`slideIndex >= 0 && slideIndex < this.slides.length`, otherwise do
nothing (`none` = no request, no state change). -/
def goToSlide (slides : List Slide) (slideIndex : ℤ) : Option ScrollRequest :=
  if 0 ≤ slideIndex ∧ slideIndex < (slides.length : ℤ) then
    some { slideIndex := slideIndex.toNat, smooth := true, alignTop := true }
  else none

/-- The target index computed by `SlideNavigation.navigateUp`
(src/main.js lines 174-178): `Math.max(currentIndex - 1, 0)`. -/
def navigateUpTarget (slides : List Slide) (st : ScrollState) : ℤ :=
  max ((getCurrentSlideIndex slides st : ℤ) - 1) 0

/-- The target index computed by `SlideNavigation.navigateDown`
(src/main.js lines 180-185): `Math.min(currentIndex + 1, totalSlides - 1)`. -/
def navigateDownTarget (slides : List Slide) (st : ScrollState) : ℤ :=
  min ((getCurrentSlideIndex slides st : ℤ) + 1) ((slides.length : ℤ) - 1)

/-- `SlideNavigation.navigateUp`: compute the clamped target and call
`goToSlide`. -/
def navigateUp (slides : List Slide) (st : ScrollState) : Option ScrollRequest :=
  goToSlide slides (navigateUpTarget slides st)

/-- `SlideNavigation.navigateDown`: compute the clamped target and call
`goToSlide`. -/
def navigateDown (slides : List Slide) (st : ScrollState) : Option ScrollRequest :=
  goToSlide slides (navigateDownTarget slides st)

/-- `KeyboardNavigation.handleKeydown` (src/main.js lines 243-272): for the
six navigation keys, compute the target index from the current index and
call `goToSlide`; for any other key return before calling it.  The source's
locals `currentIndex` and `totalSlides` are inlined.  The result is the
scroll request issued, if any. -/
def handleKeydown (slides : List Slide) (st : ScrollState) (key : String) :
    Option ScrollRequest :=
  if key = "ArrowDown" ∨ key = "PageDown" then
    goToSlide slides
      (min ((getCurrentSlideIndex slides st : ℤ) + 1) ((slides.length : ℤ) - 1))
  else if key = "ArrowUp" ∨ key = "PageUp" then
    goToSlide slides (max ((getCurrentSlideIndex slides st : ℤ) - 1) 0)
  else if key = "Home" then
    goToSlide slides 0
  else if key = "End" then
    goToSlide slides ((slides.length : ℤ) - 1)
  else none

/-- The animation-frame callback queue of the browser event loop, as used
by the scroll listeners in `SlideManager.init` (src/main.js lines 14-19)
and `SlideNavigation.init` (lines 166-168): each scroll notification runs
`requestAnimationFrame(cb)`, which appends one fresh callback to the queue;
at the next rendered frame the browser runs every queued callback once.
Only the number of queued callbacks is relevant, so the queue is a count. -/
structure FrameQueue where
  pending : ℕ
deriving DecidableEq

/-- The scroll listener body: `requestAnimationFrame` enqueues one
recomputation callback.  No flag prevents enqueueing again while a
callback is already pending. -/
def onScrollNotification (q : FrameQueue) : FrameQueue :=
  { pending := q.pending + 1 }

/-- A burst of `n` scroll notifications delivered before the next frame:
the listener fires once per notification. -/
def scrollBurst : ℕ → FrameQueue → FrameQueue
  | 0, q => q
  | n + 1, q => scrollBurst n (onScrollNotification q)

/-- The next animation-frame pass: the browser runs every pending callback
(each performing one scroll-driven recomputation) and empties the queue.
Returns the number of recomputations executed in the pass. -/
def runFramePass (q : FrameQueue) : ℕ × FrameQueue :=
  (q.pending, { pending := 0 })

/-! ### Helper lemmas about the `forEach` scans -/

/-- If no slide's range contains the focus point, the scan of
`getCurrentSlideIndex` leaves its accumulator untouched. -/
theorem scanIndex_no_match (fp : ℚ) :
    ∀ (slides : List Slide) (i cur : ℕ),
      (∀ j (hj : j < slides.length), ¬ slideContains (slides.get ⟨j, hj⟩) fp) →
      scanIndex fp i slides cur = cur := by
  intro slides
  induction slides with
  | nil => intro i cur _; rfl
  | cons sl rest ihl =>
      intro i cur hnone
      have h0 : ¬ slideContains sl fp := hnone 0 (Nat.succ_pos _)
      simp only [scanIndex, if_neg h0]
      exact ihl (i + 1) cur (fun j hj => hnone (j + 1) (Nat.succ_lt_succ hj))

/-- If exactly the slide at position `k` contains the focus point, the scan
returns `i + k` (the running index at that slide). -/
theorem scanIndex_unique_match (fp : ℚ) :
    ∀ (slides : List Slide) (i cur k : ℕ) (hk : k < slides.length),
      slideContains (slides.get ⟨k, hk⟩) fp →
      (∀ j (hj : j < slides.length), j ≠ k → ¬ slideContains (slides.get ⟨j, hj⟩) fp) →
      scanIndex fp i slides cur = i + k := by
  intro slides
  induction slides with
  | nil => intro i cur k hk _ _; exact absurd hk (Nat.not_lt_zero k)
  | cons sl rest ihl =>
      intro i cur k hk hmem huniq
      cases k with
      | zero =>
          have hsl : slideContains sl fp := hmem
          simp only [scanIndex, if_pos hsl]
          exact scanIndex_no_match fp rest (i + 1) i
            (fun j hj => huniq (j + 1) (Nat.succ_lt_succ hj) (Nat.succ_ne_zero j))
      | succ k' =>
          have hsl : ¬ slideContains sl fp :=
            huniq 0 (Nat.succ_pos _) (Ne.symm (Nat.succ_ne_zero k'))
          simp only [scanIndex, if_neg hsl]
          have h := ihl (i + 1) cur k' (Nat.lt_of_succ_lt_succ hk) hmem
            (fun j hj hne => huniq (j + 1) (Nat.succ_lt_succ hj) (by omega))
          rw [h]; omega

/-- The scan either keeps its accumulator or returns a running index of
some position inside the list. -/
theorem scanIndex_cases (fp : ℚ) :
    ∀ (slides : List Slide) (i cur : ℕ),
      scanIndex fp i slides cur = cur ∨
      ∃ j, j < slides.length ∧ scanIndex fp i slides cur = i + j := by
  intro slides
  induction slides with
  | nil => intro i cur; exact Or.inl rfl
  | cons sl rest ihl =>
      intro i cur
      simp only [scanIndex]
      by_cases h : slideContains sl fp
      · rw [if_pos h]
        rcases ihl (i + 1) i with h1 | ⟨j, hj, h2⟩
        · exact Or.inr ⟨0, Nat.succ_pos _, by rw [h1]; omega⟩
        · exact Or.inr ⟨j + 1, Nat.succ_lt_succ hj, by rw [h2]; omega⟩
      · rw [if_neg h]
        rcases ihl (i + 1) cur with h1 | ⟨j, hj, h2⟩
        · exact Or.inl h1
        · exact Or.inr ⟨j + 1, Nat.succ_lt_succ hj, by rw [h2]; omega⟩

/-- On a nonempty slide list, `getCurrentSlideIndex` always returns an
index strictly below the number of slides. -/
theorem getCurrentSlideIndex_lt (slides : List Slide) (st : ScrollState)
    (hN : 1 ≤ slides.length) : getCurrentSlideIndex slides st < slides.length := by
  unfold getCurrentSlideIndex
  rcases scanIndex_cases (focusPoint st) slides 0 0 with h | ⟨j, hj, h⟩
  · rw [h]; omega
  · rw [h]; omega

/-- If no slide's range contains the focus point, the `forEach` loop of
`updateCurrentSlide` leaves the manager state untouched. -/
theorem updateAux_no_match (fp : ℚ) :
    ∀ (slides : List Slide) (i : ℕ) (s : MgrState),
      (∀ j (hj : j < slides.length), ¬ slideContains (slides.get ⟨j, hj⟩) fp) →
      updateCurrentSlideAux fp i slides s = s := by
  intro slides
  induction slides with
  | nil => intro i s _; rfl
  | cons sl rest ihl =>
      intro i s hnone
      have h0 : ¬ slideContains sl fp := hnone 0 (Nat.succ_pos _)
      simp only [updateCurrentSlideAux]
      rw [show updateStep fp i sl s = s from by simp [updateStep, h0]]
      exact ihl (i + 1) s (fun j hj => hnone (j + 1) (Nat.succ_lt_succ hj))

/-- If exactly the slide at position `k` contains the focus point, the
`forEach` loop of `updateCurrentSlide` ends with `currentSlide = i + k + 1`
(the 1-based value of the running index at that slide). -/
theorem updateAux_unique_match (fp : ℚ) :
    ∀ (slides : List Slide) (i k : ℕ) (s : MgrState) (hk : k < slides.length),
      slideContains (slides.get ⟨k, hk⟩) fp →
      (∀ j (hj : j < slides.length), j ≠ k → ¬ slideContains (slides.get ⟨j, hj⟩) fp) →
      (updateCurrentSlideAux fp i slides s).currentSlide = i + k + 1 := by
  intro slides
  induction slides with
  | nil => intro i k s hk _ _; exact absurd hk (Nat.not_lt_zero k)
  | cons sl rest ihl =>
      intro i k s hk hmem huniq
      cases k with
      | zero =>
          have hsl : slideContains sl fp := hmem
          simp only [updateCurrentSlideAux]
          rw [updateAux_no_match fp rest (i + 1) _
            (fun j hj => huniq (j + 1) (Nat.succ_lt_succ hj) (Nat.succ_ne_zero j))]
          simp only [updateStep, if_pos hsl]
          by_cases h : i + 1 = s.currentSlide
          · rw [if_neg (not_not_intro h)]; exact h.symm
          · rw [if_pos h]
      | succ k' =>
          have hsl : ¬ slideContains sl fp :=
            huniq 0 (Nat.succ_pos _) (Ne.symm (Nat.succ_ne_zero k'))
          simp only [updateCurrentSlideAux]
          rw [show updateStep fp i sl s = s from by simp [updateStep, hsl]]
          have h := ihl (i + 1) k' s (Nat.lt_of_succ_lt_succ hk) hmem
            (fun j hj hne => huniq (j + 1) (Nat.succ_lt_succ hj) (by omega))
          rw [h]; omega

/-- Slides laid out in document order (each slide's bottom at or above the
next slide's top) have pairwise disjoint half-open ranges, so at most one
slide contains any given focus point. -/
theorem contains_unique_of_disjoint (slides : List Slide) (fp : ℚ)
    (hdisj : ∀ i j : Fin slides.length, i < j →
      (slides.get i).offsetTop + (slides.get i).offsetHeight ≤ (slides.get j).offsetTop)
    (k : ℕ) (hk : k < slides.length)
    (hmem : slideContains (slides.get ⟨k, hk⟩) fp) :
    ∀ j (hj : j < slides.length), j ≠ k → ¬ slideContains (slides.get ⟨j, hj⟩) fp := by
  intro j hj hne hcon
  rcases Nat.lt_or_ge j k with hlt | hge
  · have h1 := hdisj ⟨j, hj⟩ ⟨k, hk⟩ hlt
    linarith [hcon.2, hmem.1]
  · have hlt : k < j := Nat.lt_of_le_of_ne hge (Ne.symm hne)
    have h1 := hdisj ⟨k, hk⟩ ⟨j, hj⟩ hlt
    linarith [hmem.2, hcon.1]

/-- A burst of `n` scroll notifications enqueues exactly `n` fresh
animation-frame callbacks. -/
theorem scrollBurst_pending :
    ∀ (n : ℕ) (q : FrameQueue), (scrollBurst n q).pending = q.pending + n := by
  intro n
  induction n with
  | zero => intro q; rfl
  | succ m ihm =>
      intro q
      simp only [scrollBurst, ihm, onScrollNotification]
      omega

/-! ### The claims -/

/-- C1: for every slide sequence laid out in document order (each slide's
bottom at or above the next slide's top) and every scroll state whose focus
point (`scrollOffset + 0.5 × viewportHeight`) lies in slide `k`'s half-open
range `[top, top + height)`, `getCurrentSlideIndex` returns `k` and
`updateCurrentSlide` stores the 1-based value `k + 1`.  A focus point
exactly at slide `k + 1`'s top lies in that slide's range (given positive
height) and, ranges being disjoint, in no other, so this statement applied
at `k + 1` yields `k + 1`, not `k`; the witness exercises exactly that
boundary. -/
theorem claim1_focus_in_slide_returns_index
    (slides : List Slide) (st : ScrollState) (s : MgrState) (k : ℕ)
    (hdisj : ∀ i j : Fin slides.length, i < j →
      (slides.get i).offsetTop + (slides.get i).offsetHeight ≤ (slides.get j).offsetTop)
    (hk : k < slides.length)
    (hmem : slideContains (slides.get ⟨k, hk⟩) (focusPoint st)) :
    getCurrentSlideIndex slides st = k ∧
    (updateCurrentSlide slides st s).currentSlide = k + 1 := by
  have huniq := contains_unique_of_disjoint slides (focusPoint st) hdisj k hk hmem
  constructor
  · have h := scanIndex_unique_match (focusPoint st) slides 0 0 k hk hmem huniq
    unfold getCurrentSlideIndex
    rw [h]; omega
  · have h := updateAux_unique_match (focusPoint st) slides 0 k s hk hmem huniq
    unfold updateCurrentSlide
    rw [h]; omega

/-- Witness for C1 at the boundary: slides `[0,10)` and `[10,20)` and a
focus point of exactly 10 (the second slide's top) give index 1, not 0,
and displayed value 2. -/
theorem claim1_witness :
    getCurrentSlideIndex [⟨0, 10⟩, ⟨10, 10⟩] ⟨5, 10, 20⟩ = 1 ∧
    (updateCurrentSlide [⟨0, 10⟩, ⟨10, 10⟩] ⟨5, 10, 20⟩ ⟨1, 1⟩).currentSlide = 1 + 1 :=
  claim1_focus_in_slide_returns_index [⟨0, 10⟩, ⟨10, 10⟩] ⟨5, 10, 20⟩ ⟨1, 1⟩ 1
    (by
      intro i j hij
      fin_cases i <;> fin_cases j <;>
        first
          | exact absurd hij (by decide)
          | (show (0 : ℚ) + 10 ≤ 10; norm_num))
    (by decide)
    (by
      show slideContains ⟨10, 10⟩ (focusPoint ⟨5, 10, 20⟩)
      norm_num [slideContains, focusPoint])

/-- C2: the claim fails on the code — `updateScrollProgress` divides with
no guard for a non-scrollable document.  With `scrollHeight = innerHeight`
(zero scroll range) and offset 0 the JavaScript arithmetic yields
`0 / 0 = NaN`, so the width written is `NaN%`, not `0%`; with a positive
offset it yields `Infinity`, clamped by `Math.min` to 100; with a negative
scroll range and positive offset the written width is negative.  The spec
requires 0 in every such state. -/
theorem claim2_progress_not_scrollable_bug :
    updateScrollProgress ⟨0, 600, 600⟩ = JsNum.nan ∧
    updateScrollProgress ⟨50, 600, 600⟩ = JsNum.num 100 ∧
    updateScrollProgress ⟨50, 700, 600⟩ = JsNum.num (-50) := by
  refine ⟨?_, ?_, ?_⟩ <;>
    norm_num [updateScrollProgress, jsDiv, jsMul100, jsMin, min_def]

/-- C3: when the focus point lies in no slide's range (or there are no
slides at all), `getCurrentSlideIndex` returns the default index 0. -/
theorem claim3_no_match_returns_zero (slides : List Slide) (st : ScrollState)
    (hnone : ∀ j : Fin slides.length, ¬ slideContains (slides.get j) (focusPoint st)) :
    getCurrentSlideIndex slides st = 0 :=
  scanIndex_no_match (focusPoint st) slides 0 0 (fun j hj => hnone ⟨j, hj⟩)

/-- Witness for C3: one slide `[0,10)` with the focus point at 25. -/
theorem claim3_witness : getCurrentSlideIndex [⟨0, 10⟩] ⟨20, 10, 40⟩ = 0 :=
  claim3_no_match_returns_zero [⟨0, 10⟩] ⟨20, 10, 40⟩
    (by
      intro j
      fin_cases j
      show ¬ slideContains ⟨0, 10⟩ (focusPoint ⟨20, 10, 40⟩)
      norm_num [slideContains, focusPoint])

/-- C4: when the focus point matches no slide's range, `updateCurrentSlide`
leaves the whole manager state — the stored `currentSlide` and the
displayed counter — unchanged (stale-until-valid); it never writes a
default. -/
theorem claim4_no_match_keeps_state (slides : List Slide) (st : ScrollState)
    (s : MgrState)
    (hnone : ∀ j : Fin slides.length, ¬ slideContains (slides.get j) (focusPoint st)) :
    updateCurrentSlide slides st s = s :=
  updateAux_no_match (focusPoint st) slides 0 s (fun j hj => hnone ⟨j, hj⟩)

/-- Witness for C4: a stale state `⟨3, 3⟩` survives a non-matching
scroll unchanged. -/
theorem claim4_witness :
    updateCurrentSlide [⟨0, 10⟩] ⟨20, 10, 40⟩ ⟨3, 3⟩ = ⟨3, 3⟩ :=
  claim4_no_match_keeps_state [⟨0, 10⟩] ⟨20, 10, 40⟩ ⟨3, 3⟩
    (by
      intro j
      fin_cases j
      show ¬ slideContains ⟨0, 10⟩ (focusPoint ⟨20, 10, 40⟩)
      norm_num [slideContains, focusPoint])

/-- C5: with at least one slide, the target computed by `navigateUp`
(`max(currentIndex - 1, 0)`) and by `navigateDown`
(`min(currentIndex + 1, N - 1)`) always lies in `[0, N - 1]`; since every
invocation recomputes its index afresh from the scroll state, repeated
calls can never request an index above `N - 1` or below 0. -/
theorem claim5_navigate_targets_clamped (slides : List Slide) (st : ScrollState)
    (hN : 1 ≤ slides.length) :
    0 ≤ navigateUpTarget slides st ∧
    navigateUpTarget slides st ≤ (slides.length : ℤ) - 1 ∧
    0 ≤ navigateDownTarget slides st ∧
    navigateDownTarget slides st ≤ (slides.length : ℤ) - 1 := by
  have hlt : (getCurrentSlideIndex slides st : ℤ) < (slides.length : ℤ) := by
    exact_mod_cast getCurrentSlideIndex_lt slides st hN
  have hL : (1 : ℤ) ≤ (slides.length : ℤ) := by exact_mod_cast hN
  have hc : (0 : ℤ) ≤ (getCurrentSlideIndex slides st : ℤ) := Int.natCast_nonneg _
  unfold navigateUpTarget navigateDownTarget
  exact ⟨le_max_right _ _, max_le (by omega) (by omega),
    le_min (by omega) (by omega), min_le_right _ _⟩

/-- Witness for C5: one slide, viewport at the top. -/
theorem claim5_witness :
    0 ≤ navigateUpTarget [⟨0, 10⟩] ⟨0, 10, 10⟩ ∧
    navigateUpTarget [⟨0, 10⟩] ⟨0, 10, 10⟩ ≤ (([⟨0, 10⟩] : List Slide).length : ℤ) - 1 ∧
    0 ≤ navigateDownTarget [⟨0, 10⟩] ⟨0, 10, 10⟩ ∧
    navigateDownTarget [⟨0, 10⟩] ⟨0, 10, 10⟩ ≤ (([⟨0, 10⟩] : List Slide).length : ℤ) - 1 :=
  claim5_navigate_targets_clamped [⟨0, 10⟩] ⟨0, 10, 10⟩ (by decide)

/-- C6: `goToSlide i` for `i` outside `[0, N)` issues no scroll request
(and, the function reading but never writing any state, changes nothing
observable); for `i` inside `[0, N)` it issues exactly one smooth-scroll
request aligning slide `i`'s top edge with the viewport top. -/
theorem claim6_goToSlide_guard (slides : List Slide) (i : ℤ) :
    ((i < 0 ∨ (slides.length : ℤ) ≤ i) → goToSlide slides i = none) ∧
    (0 ≤ i → i < (slides.length : ℤ) →
      goToSlide slides i = some ⟨i.toNat, true, true⟩) := by
  constructor
  · intro h
    unfold goToSlide
    rw [if_neg]
    rintro ⟨h1, h2⟩
    rcases h with h | h <;> omega
  · intro h1 h2
    unfold goToSlide
    rw [if_pos ⟨h1, h2⟩]

/-- Witness for C6: with one slide, index 5 is ignored and index 0 yields
the single smooth request for slide 0. -/
theorem claim6_witness :
    goToSlide [⟨0, 10⟩] 5 = none ∧
    goToSlide [⟨0, 10⟩] 0 = some ⟨0, true, true⟩ :=
  ⟨(claim6_goToSlide_guard [⟨0, 10⟩] 5).1 (by decide),
   (claim6_goToSlide_guard [⟨0, 10⟩] 0).2 (by decide) (by decide)⟩

/-- C7: for a scrollable document (`scrollHeight - innerHeight > 0`) and
nonnegative scroll offsets, the width value written to the progress bar is
a finite percentage in `[0, 100]`, and for fixed geometry it is monotone
non-decreasing in the offset. -/
theorem claim7_progress_bounded_monotone (vh sh a b : ℚ)
    (hdh : 0 < sh - vh) (ha : 0 ≤ a) (hab : a ≤ b) :
    ∃ qa qb : ℚ,
      updateScrollProgress ⟨a, vh, sh⟩ = JsNum.num qa ∧
      updateScrollProgress ⟨b, vh, sh⟩ = JsNum.num qb ∧
      0 ≤ qa ∧ qa ≤ 100 ∧ 0 ≤ qb ∧ qb ≤ 100 ∧ qa ≤ qb := by
  have hne : sh - vh ≠ 0 := ne_of_gt hdh
  have hb : 0 ≤ b := le_trans ha hab
  refine ⟨min (a / (sh - vh) * 100) 100, min (b / (sh - vh) * 100) 100,
    ?_, ?_, ?_, ?_, ?_, ?_, ?_⟩
  · show jsMin (jsMul100 (jsDiv a (sh - vh))) 100 =
      JsNum.num (min (a / (sh - vh) * 100) 100)
    simp only [jsDiv, if_neg hne, jsMul100, jsMin]
  · show jsMin (jsMul100 (jsDiv b (sh - vh))) 100 =
      JsNum.num (min (b / (sh - vh) * 100) 100)
    simp only [jsDiv, if_neg hne, jsMul100, jsMin]
  · exact le_min (mul_nonneg (div_nonneg ha hdh.le) (by norm_num)) (by norm_num)
  · exact min_le_right _ _
  · exact le_min (mul_nonneg (div_nonneg hb hdh.le) (by norm_num)) (by norm_num)
  · exact min_le_right _ _
  · exact min_le_min
      (mul_le_mul_of_nonneg_right ((div_le_div_iff_of_pos_right hdh).mpr hab)
        (by norm_num)) le_rfl

/-- Witness for C7: viewport 10, document 20, offsets 0 and 5. -/
theorem claim7_witness :
    ∃ qa qb : ℚ,
      updateScrollProgress ⟨0, 10, 20⟩ = JsNum.num qa ∧
      updateScrollProgress ⟨5, 10, 20⟩ = JsNum.num qb ∧
      0 ≤ qa ∧ qa ≤ 100 ∧ 0 ≤ qb ∧ qb ≤ 100 ∧ qa ≤ qb :=
  claim7_progress_bounded_monotone 10 20 0 5 (by norm_num) (by norm_num) (by norm_num)

/-- C8: with zero slides every navigation operation — `goToSlide` with any
argument, `navigateUp`, `navigateDown`, and a keydown of any key — issues
no scroll request and accesses no slide. -/
theorem claim8_empty_slides_noop (st : ScrollState) (i : ℤ) (key : String) :
    goToSlide [] i = none ∧
    navigateUp [] st = none ∧
    navigateDown [] st = none ∧
    handleKeydown [] st key = none := by
  have hg : ∀ j : ℤ, goToSlide [] j = none := by
    intro j
    unfold goToSlide
    rw [if_neg]
    rintro ⟨h1, h2⟩
    simp only [List.length_nil, Nat.cast_zero] at h2
    omega
  refine ⟨hg i, hg _, hg _, ?_⟩
  unfold handleKeydown
  split_ifs <;> first | exact hg _ | rfl

/-- C9 counterexample: two scroll notifications within one frame enqueue
two distinct animation-frame callbacks (the listeners call
`requestAnimationFrame` unconditionally, with no pending flag), so the
following frame pass runs the scroll-driven recomputation twice — not at
most once, as claimed. -/
theorem claim9_counterexample :
    ¬ (runFramePass (scrollBurst 2 ⟨0⟩)).1 ≤ 1 := by decide

/-- C9 (amended): scroll-driven recomputation is deferred to the next
animation-frame pass, but bursts are not coalesced: `n` scroll
notifications within one frame produce exactly `n` recomputation
executions — one per notification — in the following frame pass. -/
theorem claim9_amended_once_per_event (n : ℕ) :
    (runFramePass (scrollBurst n ⟨0⟩)).1 = n := by
  show (scrollBurst n ⟨0⟩).pending = n
  rw [scrollBurst_pending]
  exact Nat.zero_add n

/-- C10: with at least one slide, a Home keydown requests a smooth scroll
to slide 0 and an End keydown to slide `N - 1`, whatever the current
scroll state; with zero slides the End key's computed target `-1` fails
`goToSlide`'s guard and no request is issued.  The spec never mentions
this jump-to-first/last capability. -/
theorem claim10_home_end_keys (slides : List Slide) (st : ScrollState) :
    (1 ≤ slides.length →
      handleKeydown slides st "Home" = some ⟨0, true, true⟩ ∧
      handleKeydown slides st "End" = some ⟨slides.length - 1, true, true⟩) ∧
    (slides.length = 0 → handleKeydown slides st "End" = none) := by
  constructor
  · intro hN
    have hL : (1 : ℤ) ≤ (slides.length : ℤ) := by exact_mod_cast hN
    constructor
    · unfold handleKeydown
      rw [if_neg (by decide), if_neg (by decide), if_pos rfl]
      unfold goToSlide
      rw [if_pos ⟨le_refl 0, by omega⟩]
      rfl
    · unfold handleKeydown
      rw [if_neg (by decide), if_neg (by decide), if_neg (by decide), if_pos rfl]
      unfold goToSlide
      rw [if_pos ⟨by omega, by omega⟩]
      have ht : ((slides.length : ℤ) - 1).toNat = slides.length - 1 := by omega
      rw [ht]
  · intro h0
    unfold handleKeydown
    rw [if_neg (by decide), if_neg (by decide), if_neg (by decide), if_pos rfl]
    unfold goToSlide
    rw [if_neg]
    rintro ⟨h1, h2⟩
    omega

/-- Witness for C10: two slides with Home and End pressed at the top, and
the empty sequence with End pressed. -/
theorem claim10_witness :
    (handleKeydown [⟨0, 10⟩, ⟨10, 10⟩] ⟨0, 10, 20⟩ "Home" = some ⟨0, true, true⟩ ∧
     handleKeydown [⟨0, 10⟩, ⟨10, 10⟩] ⟨0, 10, 20⟩ "End" = some ⟨1, true, true⟩) ∧
    handleKeydown [] ⟨0, 10, 20⟩ "End" = none :=
  ⟨(claim10_home_end_keys [⟨0, 10⟩, ⟨10, 10⟩] ⟨0, 10, 20⟩).1 (by decide),
   (claim10_home_end_keys [] ⟨0, 10, 20⟩).2 rfl⟩

end ClickGasto
